import Mathlib

set_option maxRecDepth 10000

/-!
Verification of apl97/Registro-Empleados (employee attendance tracker).

Shallow embedding of the JavaScript sources:
  - src/routes/tracking.js   (rate limiter, UUID / employee-reference
    validation, signed-reference decoding, redemption transaction)
  - src/services/emailService.js (daily dispatch job)
  - src/services/scheduler.js (retry wrapper around the dispatch job)
  - src/routes/records.js    (attendance-record deletion with the
    daily_emails reset)
  - src/routes/employees.js / employee update route (wage updates)
  - src/config/database.js   (schema constraints of daily_emails)

Modelling conventions:
  - Machine numbers are Int / Nat (ids are SERIAL positives, timestamps
    are milliseconds, DECIMAL(12,2) wages are integral monetary units);
    JavaScript double rounding beyond 2^53 is not modelled.
  - The PostgreSQL store is an explicit record of lists; a query is a
    List traversal, a transaction is a pure function returning the new
    store, and ROLLBACK returns the original store.
  - crypto.createHmac('sha256', secret).update(msg).digest('hex') is an
    uninterpreted parameter hmacHex : String -> String -> String
    (secret, message -> hex digest); Buffer base64 decoding and the
    lenient utf8 decoding of Buffer.toString are implemented concretely.
  - The in-memory Map for rate limiting is a function
    String -> Option RateRecord updated pointwise.
-/

/-- JavaScript Number.isInteger-style decimal digit run to a natural number. -/
def digitsToNat (ds : List Char) : Nat :=
  ds.foldl (fun acc c => acc * 10 + (c.toNat - ('0').toNat)) 0

/-- JavaScript whitespace characters skipped by parseInt. -/
def isJsSpace (c : Char) : Bool :=
  c = ' ' || c = '\t' || c = '\n' || c = '\r'

/-- JavaScript parseInt(s, 10): skip leading whitespace, optional sign,
then the maximal run of leading decimal digits; none models NaN.
(Precision loss of doubles above 2^53 is not modelled.) -/
def jsParseInt10 (s : String) : Option Int :=
  let cs := s.toList.dropWhile isJsSpace
  let signed : Int × List Char :=
    match cs with
    | '-' :: r => (-1, r)
    | '+' :: r => (1, r)
    | r => (1, r)
  let ds := signed.2.takeWhile Char.isDigit
  if ds.isEmpty then none
  else some (signed.1 * (digitsToNat ds : Int))

/-- Hexadecimal digit, case-insensitive (the regex character class [0-9a-f]
with the i flag). -/
def isHexDigitCI (c : Char) : Bool :=
  c.isDigit || ('a' ≤ c && c ≤ 'f') || ('A' ≤ c && c ≤ 'F')

/-- tracking.js isValidUUID: the anchored regex
^[0-9a-f]\x7b8\x7d-[0-9a-f]\x7b4\x7d-4[0-9a-f]\x7b3\x7d-[89ab][0-9a-f]\x7b3\x7d-[0-9a-f]\x7b12\x7d$
with the i flag, checked positionally on the 36 characters. -/
def isValidUUID (s : String) : Bool :=
  let cs := s.toList
  cs.length = 36 &&
  (List.range 36).all (fun i =>
    let c := cs.getD i ' '
    if i = 8 || i = 13 || i = 18 || i = 23 then c = '-'
    else if i = 14 then c = '4'
    else if i = 19 then
      c = '8' || c = '9' || c = 'a' || c = 'b' || c = 'A' || c = 'B'
    else isHexDigitCI c)

/-- Character class [A-Za-z0-9_-] of the signed-reference regex. -/
def isB64UrlChar (c : Char) : Bool :=
  ('A' ≤ c && c ≤ 'Z') || ('a' ≤ c && c ≤ 'z') || c.isDigit || c = '_' || c = '-'

/-- tracking.js new-format test: /^[A-Za-z0-9_-]\x7b32,\x7d$/ . -/
def signedRefFormat (ref : String) : Bool :=
  32 ≤ ref.length && ref.toList.all isB64UrlChar

/-- tracking.js isValidEmployeeRef: signed format, or a legacy positive
integer in canonical decimal form (num.toString() === ref). -/
def isValidEmployeeRef (ref : String) : Bool :=
  if signedRefFormat ref then true
  else
    match jsParseInt10 ref with
    | some num => decide (0 < num) && decide (toString num = ref)
    | none => false

/-- The substitution ref.replace of every dash with a plus and every
underscore with a slash, applied before base64 decoding. -/
def b64urlSubst (c : Char) : Char :=
  if c = '-' then '+' else if c = '_' then '/' else c

/-- Value of one base64 alphabet character; none for characters Node's
base64 decoder ignores. -/
def b64Val (c : Char) : Option Nat :=
  if 'A' ≤ c && c ≤ 'Z' then some (c.toNat - ('A').toNat)
  else if 'a' ≤ c && c ≤ 'z' then some (c.toNat - ('a').toNat + 26)
  else if '0' ≤ c && c ≤ '9' then some (c.toNat - ('0').toNat + 52)
  else if c = '+' then some 62
  else if c = '/' then some 63
  else none

/-- Node Buffer.from(s, 'base64'): groups of four sextets give three
bytes; a trailing group of three gives two bytes, of two gives one byte,
and a single leftover sextet is dropped. -/
def sextetsToBytes : List Nat → List Nat
  | a :: b :: c :: d :: rest =>
      (a * 4 + b / 16) :: ((b % 16) * 16 + c / 4) :: ((c % 4) * 64 + d) ::
        sextetsToBytes rest
  | [a, b, c] => [a * 4 + b / 16, (b % 16) * 16 + c / 4]
  | [a, b] => [a * 4 + b / 16]
  | [_] => []
  | [] => []

/-- Base64url decoding of the reference into raw bytes, as performed by
Buffer.from on the dash and underscore substituted string with the
base64 encoding argument. -/
def b64urlDecodeBytes (s : String) : List Nat :=
  sextetsToBytes ((s.toList.map b64urlSubst).filterMap b64Val)

/-- Lenient utf8 decoding used by Buffer.toString('utf8'): well-formed
sequences decode to their code point, ill-formed bytes become U+FFFD and
decoding resumes at the offending byte. The fuel argument only bounds
the recursion; every step consumes at least one byte, so fuel equal to
the byte count (as passed by utf8Lenient) never runs out. -/
def utf8LenientGo : Nat → List Nat → List Char
  | 0, _ => []
  | _, [] => []
  | Nat.succ fuel, b :: rest =>
    if b < 0x80 then
      Char.ofNat b :: utf8LenientGo fuel rest
    else if 0xC2 ≤ b ∧ b ≤ 0xDF then
      match rest with
      | [] => [(Char.ofNat 0xFFFD)]
      | c1 :: rest1 =>
        if 0x80 ≤ c1 ∧ c1 ≤ 0xBF then
          Char.ofNat ((b - 0xC0) * 0x40 + (c1 - 0x80)) :: utf8LenientGo fuel rest1
        else
          Char.ofNat 0xFFFD :: utf8LenientGo fuel rest
    else if 0xE0 ≤ b ∧ b ≤ 0xEF then
      match rest with
      | [] => [(Char.ofNat 0xFFFD)]
      | c1 :: rest1 =>
        if (if b = 0xE0 then 0xA0 ≤ c1 ∧ c1 ≤ 0xBF
            else if b = 0xED then 0x80 ≤ c1 ∧ c1 ≤ 0x9F
            else 0x80 ≤ c1 ∧ c1 ≤ 0xBF) then
          match rest1 with
          | [] => [(Char.ofNat 0xFFFD)]
          | c2 :: rest2 =>
            if 0x80 ≤ c2 ∧ c2 ≤ 0xBF then
              Char.ofNat ((b - 0xE0) * 0x1000 + (c1 - 0x80) * 0x40 + (c2 - 0x80)) ::
                utf8LenientGo fuel rest2
            else
              Char.ofNat 0xFFFD :: utf8LenientGo fuel rest1
        else
          Char.ofNat 0xFFFD :: utf8LenientGo fuel rest
    else if 0xF0 ≤ b ∧ b ≤ 0xF4 then
      match rest with
      | [] => [(Char.ofNat 0xFFFD)]
      | c1 :: rest1 =>
        if (if b = 0xF0 then 0x90 ≤ c1 ∧ c1 ≤ 0xBF
            else if b = 0xF4 then 0x80 ≤ c1 ∧ c1 ≤ 0x8F
            else 0x80 ≤ c1 ∧ c1 ≤ 0xBF) then
          match rest1 with
          | [] => [(Char.ofNat 0xFFFD)]
          | c2 :: rest2 =>
            if 0x80 ≤ c2 ∧ c2 ≤ 0xBF then
              match rest2 with
              | [] => [(Char.ofNat 0xFFFD)]
              | c3 :: rest3 =>
                if 0x80 ≤ c3 ∧ c3 ≤ 0xBF then
                  Char.ofNat ((b - 0xF0) * 0x40000 + (c1 - 0x80) * 0x1000 +
                      (c2 - 0x80) * 0x40 + (c3 - 0x80)) :: utf8LenientGo fuel rest3
                else
                  Char.ofNat 0xFFFD :: utf8LenientGo fuel rest2
            else
              Char.ofNat 0xFFFD :: utf8LenientGo fuel rest1
        else
          Char.ofNat 0xFFFD :: utf8LenientGo fuel rest
    else
      Char.ofNat 0xFFFD :: utf8LenientGo fuel rest

/-- Lenient utf8 decoding of a byte list (Buffer.toString('utf8')). -/
def utf8Lenient (bs : List Nat) : List Char :=
  utf8LenientGo bs.length bs

/-- The decoded string of a signed reference:
Buffer.from(..., 'base64').toString('utf8'). -/
def decodedRefString (ref : String) : String :=
  String.mk (utf8Lenient (b64urlDecodeBytes ref))

/-- JavaScript String.split with a one-character separator; the result
list is never empty (splitting the empty string yields one empty part). -/
def splitOnChar (sep : Char) : List Char → List (List Char)
  | [] => [[]]
  | c :: rest =>
    let r := splitOnChar sep rest
    if c = sep then [] :: r
    else (c :: r.headD []) :: r.tail

/-- The parts of decoded.split of the colon separator for a signed
reference. -/
def refParts (ref : String) : List String :=
  (splitOnChar ':' (decodedRefString ref).toList).map String.mk

/-- tracking.js decodeEmployeeRef(ref, token): signed format first
(base64url(employeeId ":" signature), signature must equal the first 16
hex characters of HMAC-SHA256(secret, token ":" employeeId)), then the
backwards-compatible legacy bare numeric id; null (none) if invalid or
tampered. hmacHex is the uninterpreted HMAC-SHA256 hex digest. -/
def decodeEmployeeRef (hmacHex : String → String → String) (secret : String)
    (ref token : String) : Option Int :=
  if signedRefFormat ref then
    let parts := refParts ref
    let idPart := parts.headD ("")
    let signaturePart : Option String := parts[1]?
    match jsParseInt10 idPart with
    | none => none
    | some employeeId =>
      if employeeId ≤ 0 then none
      else
        let expectedSignature := (hmacHex secret (token ++ ":" ++ toString employeeId)).take 16
        if signaturePart = some expectedSignature then some employeeId else none
  else
    match jsParseInt10 ref with
    | some num =>
        if 0 < num ∧ toString num = ref then some num else none
    | none => none

/-! ### Rate limiter (tracking.js) -/

/-- One entry of the in-memory trackingAttempts map. -/
structure RateRecord where
  count : Nat
  windowStart : Nat
  locked : Bool
deriving Repr, DecidableEq

/-- Return value of checkTrackingRateLimit; the absent lockedOut field of
the JavaScript object literal is modelled as false. -/
structure RateResult where
  allowed : Bool
  lockedOut : Bool
deriving Repr, DecidableEq

/-- The trackingAttempts Map keyed by client address. -/
def RateMap : Type := String → Option RateRecord

/-- Map.set on the trackingAttempts map (pointwise update). -/
def setRate (m : RateMap) (ip : String) (r : RateRecord) : RateMap :=
  fun k => if k = ip then some r else m k

/-- The empty trackingAttempts map. -/
def emptyRateMap : RateMap := fun _ => none

def RATE_LIMIT_WINDOW : Nat := 60 * 1000
def MAX_REQUESTS_PER_WINDOW : Nat := 30
def LOCKOUT_THRESHOLD : Nat := 100
def LOCKOUT_TIME : Nat := 15 * 60 * 1000

/-- tracking.js checkTrackingRateLimit(ip), with Date.now() passed in as
now. Returns the result object and the updated map. -/
def checkTrackingRateLimit (now : Nat) (m : RateMap) (ip : String) :
    RateResult × RateMap :=
  match m ip with
  | none =>
      (⟨true, false⟩, setRate m ip ⟨1, now, false⟩)
  | some record =>
      if record.locked ∧ now - record.windowStart < LOCKOUT_TIME then
        (⟨false, true⟩, m)
      else if now - record.windowStart > RATE_LIMIT_WINDOW then
        (⟨true, false⟩, setRate m ip ⟨1, now, false⟩)
      else
        let count1 := record.count + 1
        if count1 > LOCKOUT_THRESHOLD then
          (⟨false, true⟩, setRate m ip ⟨count1, now, true⟩)
        else if count1 > MAX_REQUESTS_PER_WINDOW then
          (⟨false, false⟩, setRate m ip { record with count := count1 })
        else
          (⟨true, false⟩, setRate m ip { record with count := count1 })

/-- Sequence of rate-limited requests from one client address: fold of
checkTrackingRateLimit over the request timestamps. -/
def runRateLimit (ip : String) : List Nat → RateMap → List RateResult × RateMap
  | [], m => ([], m)
  | t :: ts, m =>
    let step := checkTrackingRateLimit t m ip
    let rest := runRateLimit ip ts step.2
    (step.1 :: rest.1, rest.2)

/-! ### Data model (src/config/database.js tables) -/

/-- Row of the employees table. daily_wage DECIMAL(12,2) is modelled as
an integral monetary amount, nullable in legacy rows. -/
structure Employee where
  id : Int
  firstName : String
  lastName : String
  dailyWage : Option Int
  active : Bool
deriving Repr, DecidableEq

/-- Row of the daily_emails table (the DispatchRecord). -/
structure DailyEmail where
  id : Int
  sentDate : String
  token : String
  used : Bool
  usedByEmployeeId : Option Int
deriving Repr, DecidableEq

/-- Row of the work_records table (the AttendanceRecord); recorded_at is
not modelled (no claim mentions it). -/
structure WorkRecord where
  id : Int
  employeeId : Int
  workDate : String
  wageAmount : Int
  emailToken : Option String
deriving Repr, DecidableEq

/-- Row of the email_recipients table. -/
structure Recipient where
  email : String
  active : Bool
deriving Repr, DecidableEq

/-- The relational store. nextWorkRecordId / nextDailyEmailId model the
SERIAL sequences. -/
structure Store where
  employees : List Employee
  dailyEmails : List DailyEmail
  workRecords : List WorkRecord
  recipients : List Recipient
  nextWorkRecordId : Int
  nextDailyEmailId : Int
deriving Repr, DecidableEq

/-- Schema constraints declared by CREATE TABLE daily_emails: the SERIAL
primary key makes id unique and token is declared UNIQUE. No constraint
on sent_date is declared (only the non-unique index
idx_daily_emails_sent_date exists). -/
def dailyEmailsSchemaOk (rows : List DailyEmail) : Prop :=
  (rows.map (fun e => e.id)).Nodup ∧ (rows.map (fun e => e.token)).Nodup

instance (rows : List DailyEmail) : Decidable (dailyEmailsSchemaOk rows) := by
  unfold dailyEmailsSchemaOk; infer_instance

/-- The property the specification attributes to the schema: at most one
daily_emails row per calendar day. -/
def dispatchDateUnique (rows : List DailyEmail) : Prop :=
  (rows.map (fun e => e.sentDate)).Nodup

instance (rows : List DailyEmail) : Decidable (dispatchDateUnique rows) := by
  unfold dispatchDateUnique; infer_instance

/-- SELECT of the daily_emails row matching a token (token is UNIQUE, so
the first match is the row). -/
def findDailyEmailByToken (db : Store) (token : String) : Option DailyEmail :=
  db.dailyEmails.find? (fun e => e.token = token)

/-- SELECT of the employees row matching an id. -/
def findEmployeeById (db : Store) (i : Int) : Option Employee :=
  db.employees.find? (fun e => e.id = i)

/-- SELECT id FROM work_records WHERE employee_id = $1 AND work_date = $2:
whether an attendance row already exists for the pair. -/
def hasWorkRecordFor (db : Store) (employeeId : Int) (workDate : String) : Bool :=
  db.workRecords.any (fun r => r.employeeId = employeeId ∧ r.workDate = workDate)

/-- JavaScript employee.daily_wage or-zero default used at insert time. -/
def wageOrZero : Option Int → Int
  | none => 0
  | some w => w

/-! ### Redemption (tracking.js public route handler) -/

/-- Outcome rendered by the tracking route; each constructor is one of
the render sites of the handler. -/
inductive TrackResult where
  | rateLimitedLockedOut
  | rateLimitedWait
  | invalidLinkFormat
  | invalidEmployeeRef
  | invalidOrExpiredRef
  | linkNotFoundOrExpired
  | employeeNotFound
  | employeeInactive
  | success (employeeName : String) (date : String)
deriving Repr, DecidableEq

/-- Whether the outcome is the success page. -/
def TrackResult.isSuccess : TrackResult → Bool
  | .success _ _ => true
  | _ => false

/-- The transactional part of the tracking handler (BEGIN through
COMMIT): row-lock the daily_emails row by token, check the employee,
the idempotency check, then insert the work record and mark the token
used. ROLLBACK is modelled by returning the store unchanged. -/
def redeemTransaction (db : Store) (token : String) (employeeId : Int) :
    TrackResult × Store :=
  match findDailyEmailByToken db token with
  | none => (.linkNotFoundOrExpired, db)
  | some dailyEmail =>
    match findEmployeeById db employeeId with
    | none => (.employeeNotFound, db)
    | some employee =>
      if !employee.active then (.employeeInactive, db)
      else if hasWorkRecordFor db employeeId dailyEmail.sentDate then
        (.success (employee.firstName ++ " " ++ employee.lastName) dailyEmail.sentDate, db)
      else
        let newRecord : WorkRecord :=
          ⟨db.nextWorkRecordId, employeeId, dailyEmail.sentDate,
            wageOrZero employee.dailyWage, some token⟩
        let db1 : Store :=
          { db with
              workRecords := db.workRecords ++ [newRecord],
              nextWorkRecordId := db.nextWorkRecordId + 1 }
        let db2 : Store :=
          { db1 with
              dailyEmails := db1.dailyEmails.map (fun e =>
                if e.id = dailyEmail.id then
                  { e with used := true, usedByEmployeeId := some employeeId }
                else e) }
        (.success (employee.firstName ++ " " ++ employee.lastName) dailyEmail.sentDate, db2)

/-- The full tracking route handler: rate limit, token and reference
shape validation, signed-reference decoding, then the transaction. -/
def handleTracking (hmacHex : String → String → String) (secret : String)
    (now : Nat) (rl : RateMap) (ip token employeeRef : String) (db : Store) :
    TrackResult × RateMap × Store :=
  let rate := checkTrackingRateLimit now rl ip
  if !rate.1.allowed then
    (if rate.1.lockedOut then .rateLimitedLockedOut else .rateLimitedWait, rate.2, db)
  else if !isValidUUID token then (.invalidLinkFormat, rate.2, db)
  else if !isValidEmployeeRef employeeRef then (.invalidEmployeeRef, rate.2, db)
  else
    match decodeEmployeeRef hmacHex secret employeeRef token with
    | none => (.invalidOrExpiredRef, rate.2, db)
    | some employeeId =>
      let tr := redeemTransaction db token employeeId
      (tr.1, rate.2, tr.2)

/-! ### Daily dispatch job (emailService.js sendDailyEmail) -/

/-- Outcome of the external sgMail.send call: success, or a thrown error
with its message (a missing SENDGRID_API_KEY also surfaces here, since
sendDailyEmail performs no configuration check of its own). -/
inductive MailOutcome where
  | ok
  | err (message : String)
deriving Repr, DecidableEq

/-- The object returned by sendDailyEmail. -/
structure DispatchResult where
  success : Bool
  message : String
deriving Repr, DecidableEq

/-- SELECT employees WHERE active = true (ORDER BY first_name affects
only presentation order and is not modelled). -/
def activeEmployeesOf (db : Store) : List Employee :=
  db.employees.filter (fun e => e.active)

/-- SELECT email FROM email_recipients WHERE active = true. -/
def activeRecipientsOf (db : Store) : List Recipient :=
  db.recipients.filter (fun r => r.active)

/-- SELECT id FROM daily_emails WHERE sent_date = $1: the application
level already-sent check. -/
def dailyEmailExistsFor (db : Store) (today : String) : Bool :=
  db.dailyEmails.any (fun e => e.sentDate = today)

/-- INSERT INTO daily_emails (sent_date, token), an auto-committing
single statement (sendDailyEmail opens no transaction). -/
def insertDailyEmail (db : Store) (today token : String) : Store :=
  { db with
      dailyEmails := db.dailyEmails ++ [⟨db.nextDailyEmailId, today, token, false, none⟩],
      nextDailyEmailId := db.nextDailyEmailId + 1 }

/-- The employeeRef path segments of the links built by sendDailyEmail:
the bare employee id rendered into appUrl/track/token/emp.id for each
active employee. -/
def dispatchEmployeeRefs (db : Store) : List String :=
  (activeEmployeesOf db).map (fun e => toString e.id)

/-- emailService.js sendDailyEmail, with today's date, the freshly
generated uuid token, and the sgMail.send outcome passed in as
parameters. The three precondition checks short-circuit before any
write; the insert is a plain auto-committed query issued before the
send, and the catch block returns the error message without undoing
the insert. -/
def sendDailyEmail (today token : String) (mail : MailOutcome) (db : Store) :
    DispatchResult × Store :=
  if dailyEmailExistsFor db today then
    (⟨false, "Email already sent today"⟩, db)
  else if (activeEmployeesOf db).isEmpty then
    (⟨false, "No active employees"⟩, db)
  else if (activeRecipientsOf db).isEmpty then
    (⟨false, "No active recipients"⟩, db)
  else
    let db1 := insertDailyEmail db today token
    match mail with
    | .ok =>
        (⟨true, "Email sent to " ++ toString (activeRecipientsOf db).length ++ " recipient(s)"⟩, db1)
    | .err msg => (⟨false, msg⟩, db1)

/-! ### Scheduler retry policy (scheduler.js sendWithRetry) -/

/-- Whether the character list starting here begins with the pattern. -/
def startsWithList : List Char → List Char → Bool
  | _, [] => true
  | [], _ :: _ => false
  | c :: cs, p :: ps => c = p && startsWithList cs ps

/-- Substring search over character lists. -/
def containsSub : List Char → List Char → Bool
  | [], needle => needle.isEmpty
  | c :: rest, needle => startsWithList (c :: rest) needle || containsSub rest needle

/-- JavaScript String.includes. -/
def jsIncludes (s sub : String) : Bool :=
  containsSub s.toList sub.toList

/-- The non-retriable message test of scheduler.js sendWithRetry. -/
def isNonRetriableMessage (msg : String) : Bool :=
  jsIncludes msg ("already sent") ||
  jsIncludes msg ("No active employees") ||
  jsIncludes msg ("No active recipients") ||
  jsIncludes msg ("not configured")

def MAX_RETRIES : Nat := 3
def RETRY_DELAY_MS : Nat := 5 * 60 * 1000

/-- One dispatch attempt as seen by the scheduler: sendDailyEmail
returned a result object, or threw. -/
inductive AttemptOutcome where
  | result (r : DispatchResult)
  | thrown
deriving Repr

/-- scheduler.js sendWithRetry(attempt): returns how many dispatch
attempts the invocation chain performs and the list of setTimeout delays
scheduled between consecutive attempts. outcomes gives the dispatch
outcome of each attempt number. -/
def sendWithRetry (outcomes : Nat → AttemptOutcome) (attempt : Nat) : Nat × List Nat :=
  match outcomes attempt with
  | .result r =>
    if r.success then (1, [])
    else if isNonRetriableMessage r.message then (1, [])
    else if h : attempt < MAX_RETRIES then
      let rest := sendWithRetry outcomes (attempt + 1)
      (rest.1 + 1, RETRY_DELAY_MS :: rest.2)
    else (1, [])
  | .thrown =>
    if h : attempt < MAX_RETRIES then
      let rest := sendWithRetry outcomes (attempt + 1)
      (rest.1 + 1, RETRY_DELAY_MS :: rest.2)
    else (1, [])
termination_by MAX_RETRIES - attempt
decreasing_by all_goals omega

/-! ### Record deletion (records.js) and employee update route -/

/-- records.js isValidId: parseInt positive (no canonical-form check). -/
def isValidId (s : String) : Bool :=
  match jsParseInt10 s with
  | some num => 0 < num
  | none => false

/-- Outcome of the record-deletion route. -/
inductive DeleteResult where
  | invalidId
  | notFound
  | deleted (employeeId : Int) (workDate : String)
deriving Repr, DecidableEq

/-- The two statements of the delete handler: DELETE FROM work_records
WHERE id RETURNING employee_id, work_date; then UPDATE daily_emails SET
used = false, used_by_employee_id = NULL WHERE sent_date equals the
returned work_date AND used_by_employee_id equals the returned
employee_id. -/
def deleteWorkRecordTx (recId : Int) (db : Store) : Option (Int × String) × Store :=
  match db.workRecords.find? (fun r => r.id = recId) with
  | none => (none, db)
  | some r =>
    let db1 : Store :=
      { db with workRecords := db.workRecords.filter (fun w => ¬ w.id = recId) }
    let db2 : Store :=
      { db1 with
          dailyEmails := db1.dailyEmails.map (fun e =>
            if e.sentDate = r.workDate ∧ e.usedByEmployeeId = some r.employeeId then
              { e with used := false, usedByEmployeeId := none }
            else e) }
    (some (r.employeeId, r.workDate), db2)

/-- records.js delete route: id validation, then the delete with the
daily_emails reset. -/
def deleteRecordRoute (idStr : String) (db : Store) : DeleteResult × Store :=
  if !isValidId idStr then (.invalidId, db)
  else
    match jsParseInt10 idStr with
    | none => (.invalidId, db)
    | some recId =>
      let tx := deleteWorkRecordTx recId db
      match tx.1 with
      | none => (.notFound, db)
      | some pr => (.deleted pr.1 pr.2, tx.2)

/-- The UPDATE employees SET first_name, last_name, daily_wage, active
WHERE id statement of the employee update route (the route always
supplies a concrete wage: parseFloat(daily_wage) or the zero default).
It touches no other table. -/
def updateEmployee (id : Int) (firstName lastName : String) (dailyWage : Int)
    (active : Bool) (db : Store) : Store :=
  { db with
      employees := db.employees.map (fun e =>
        if e.id = id then
          { e with firstName := firstName, lastName := lastName,
                   dailyWage := some dailyWage, active := active }
        else e) }

/-! ### Concrete fixtures used by witnesses and counterexamples -/

/-- A stand-in hex digest function for concrete instantiations (the
theorems about decodeEmployeeRef hold for every digest function). -/
def gHmac : String → String → String := fun _ msg => msg

/-- A well-formed token (passes isValidUUID). -/
def tokA : String := "aaaaaaaa-bbbb-4aaa-8aaa-aaaaaaaaaaaa"

/-- A second, different well-formed token. -/
def tokB : String := "cccccccc-dddd-4ccc-8ccc-cccccccccccc"

/-- base64url of the ascii bytes of 1234567:aaaaaaaa-bbbb-4a, a signed
reference whose signature part matches gHmac for tokA. -/
def refSigned : String := "MTIzNDU2NzphYWFhYWFhYS1iYmJiLTRh"

/-- An active employee. -/
def aliceEmp : Employee := ⟨1, "Alice", "Smith", some 100, true⟩

/-- An active recipient. -/
def testRecipient : Recipient := ⟨"a@x.com", true⟩

/-- Store with one active employee and one active recipient, nothing
dispatched or recorded. -/
def baseStore : Store := ⟨[aliceEmp], [], [], [testRecipient], 1, 1⟩

/-- Store ready for a redemption of tokA by employee 1. -/
def redeemStore : Store :=
  ⟨[aliceEmp], [⟨10, "2024-06-01", tokA, false, none⟩], [], [testRecipient], 100, 11⟩

/-- A dispatch row already redeemed by employee 1 on 2024-06-01. -/
def usedDispatchRow : DailyEmail := ⟨10, "2024-06-01", tokA, true, some 1⟩

/-- The attendance row produced by that redemption (email_token tokA). -/
def redeemedRecord : WorkRecord := ⟨100, 1, "2024-06-01", 100, some tokA⟩

/-- A manually created attendance row for the same employee and day
(email_token NULL, so not produced by any dispatch). -/
def manualRecord : WorkRecord := ⟨101, 1, "2024-06-01", 100, none⟩

/-- Store holding the redeemed dispatch row plus both attendance rows. -/
def deleteStore : Store :=
  ⟨[aliceEmp], [usedDispatchRow], [redeemedRecord, manualRecord], [testRecipient], 102, 11⟩

/-- Summary of one rate-limiter decision as a function of how many
requests the current window has already counted: the first
MAX_REQUESTS_PER_WINDOW are admitted, further ones up to
LOCKOUT_THRESHOLD are refused without lockout, and from the
LOCKOUT_THRESHOLD-exceeding request on the client is locked out. -/
def expectedRateResult (n : Nat) : RateResult :=
  if n < MAX_REQUESTS_PER_WINDOW then ⟨true, false⟩
  else if n < LOCKOUT_THRESHOLD then ⟨false, false⟩
  else ⟨false, true⟩

/-! ### Theorems -/

/-- The store side of sendDailyEmail: unchanged when any precondition
fires, otherwise the inserted dispatch row persists whatever the mail
outcome was. -/
theorem sendDailyEmail_snd (today token : String) (mail : MailOutcome) (db : Store) :
    (sendDailyEmail today token mail db).2 =
      if dailyEmailExistsFor db today ∨ (activeEmployeesOf db).isEmpty ∨
          (activeRecipientsOf db).isEmpty then db
      else insertDailyEmail db today token := by
  unfold sendDailyEmail
  split_ifs with h1 h2 h3 h4 <;> cases mail <;> simp_all

/-- Inserting today's dispatch row makes the already-sent check fire. -/
theorem dailyEmailExistsFor_insert (db : Store) (today token : String) :
    dailyEmailExistsFor (insertDailyEmail db today token) today = true := by
  simp [dailyEmailExistsFor, insertDailyEmail]

/-- C1 counterexample: there is no database uniqueness constraint on the
dispatch date. Starting from a store with an active employee and an
active recipient and no dispatch row, the application-level existence
check passes (so a dispatch run inserts), yet a second insert for the
same day — exactly the write an overlapped dispatch run that already
passed its own existence check performs — yields a table with two rows
for 2024-06-01 that satisfies every constraint the schema declares
(unique ids, unique tokens). -/
theorem dispatch_date_race_counterexample :
    dailyEmailExistsFor baseStore ("2024-06-01") = false ∧
    (sendDailyEmail ("2024-06-01") tokA .ok baseStore).2 =
      insertDailyEmail baseStore ("2024-06-01") tokA ∧
    dailyEmailsSchemaOk
      (insertDailyEmail (insertDailyEmail baseStore ("2024-06-01") tokA)
        ("2024-06-01") tokB).dailyEmails ∧
    ¬ dispatchDateUnique
      (insertDailyEmail (insertDailyEmail baseStore ("2024-06-01") tokA)
        ("2024-06-01") tokB).dailyEmails := by
  refine ⟨by decide, ?_, by decide, by decide⟩
  rw [sendDailyEmail_snd]
  decide

/-- C1 (amended): at most one DispatchRecord per calendar day is
maintained only by the application-level existence check inside
sendDailyEmail, which is race-safe only for sequential runs: a run
aborts with no write when a row for today exists, and a sequential run
preserves date uniqueness; the schema itself constrains only id and
token uniqueness and accepts two rows for one day. -/
theorem dispatch_day_uniqueness_amended (db : Store) (today token : String)
    (mail : MailOutcome) :
    (dailyEmailExistsFor db today = true →
      sendDailyEmail today token mail db = (⟨false, ("Email already sent today")⟩, db)) ∧
    (dispatchDateUnique db.dailyEmails →
      dispatchDateUnique ((sendDailyEmail today token mail db).2).dailyEmails) ∧
    (dailyEmailsSchemaOk
        ([⟨1, ("2024-06-01"), tokA, false, none⟩, ⟨2, ("2024-06-01"), tokB, false, none⟩]) ∧
      ¬ dispatchDateUnique
        ([⟨1, ("2024-06-01"), tokA, false, none⟩, ⟨2, ("2024-06-01"), tokB, false, none⟩])) := by
  refine ⟨fun h => by simp [sendDailyEmail, h], fun h => ?_, by decide, by decide⟩
  rw [sendDailyEmail_snd]
  split_ifs with hcase
  · exact h
  · push_neg at hcase
    obtain ⟨hnot, _, _⟩ := hcase
    simp only [Bool.not_eq_true] at hnot
    unfold dispatchDateUnique at h ⊢
    unfold insertDailyEmail
    simp only [List.map_append, List.map_cons, List.map_nil]
    rw [List.nodup_append]
    refine ⟨h, List.nodup_singleton _, ?_⟩
    intro d hd hd2
    simp only [List.mem_singleton] at hd2
    simp only [List.mem_map] at hd
    obtain ⟨e, he, hes⟩ := hd
    have hfalse := hnot
    unfold dailyEmailExistsFor at hfalse
    rw [List.any_eq_false] at hfalse
    have hne := hfalse e he
    simp only [decide_eq_true_eq] at hne
    exact hne (hes.trans hd2)

/-- Witness instantiating dispatch_day_uniqueness_amended: a store that
already dispatched 2024-06-01 aborts with no write, and a fresh store
preserves date uniqueness. -/
theorem dispatch_day_uniqueness_amended_witness :
    (dailyEmailExistsFor redeemStore ("2024-06-01") = true ∧
      sendDailyEmail ("2024-06-01") tokB .ok redeemStore =
        (⟨false, ("Email already sent today")⟩, redeemStore)) ∧
    (dispatchDateUnique baseStore.dailyEmails ∧
      dispatchDateUnique ((sendDailyEmail ("2024-06-01") tokA .ok baseStore).2).dailyEmails) := by
  refine ⟨⟨by decide, ?_⟩, ⟨by decide, ?_⟩⟩
  · exact (dispatch_day_uniqueness_amended redeemStore ("2024-06-01") tokB .ok).1 (by decide)
  · exact (dispatch_day_uniqueness_amended baseStore ("2024-06-01") tokA .ok).2.1 (by decide)

/-- C2 counterexample: a dispatch invocation whose mail send fails still
leaves a DispatchRecord for today behind — the insert was a plain
auto-committed statement issued before the send, not part of a
transaction rolled back on send failure. -/
theorem dispatch_atomicity_counterexample :
    (sendDailyEmail ("2024-06-01") tokA (.err ("connect ETIMEDOUT")) baseStore).1.success
        = false ∧
    dailyEmailExistsFor
        (sendDailyEmail ("2024-06-01") tokA (.err ("connect ETIMEDOUT")) baseStore).2
        ("2024-06-01") = true := by
  constructor
  · rfl
  · rw [show (sendDailyEmail ("2024-06-01") tokA (.err ("connect ETIMEDOUT")) baseStore).2
        = insertDailyEmail baseStore ("2024-06-01") tokA from by
          rw [sendDailyEmail_snd]; decide]
    decide

/-- C2 (amended): the DispatchRecord insert commits before the mail
send. When the preconditions pass, a successful send leaves the record
and reports success; a failed send reports failure but the record
persists all the same, so a DispatchRecord for today exists after the
run regardless of whether the email was actually sent. -/
theorem dispatch_insert_precedes_send (db : Store) (today token msg : String)
    (h1 : dailyEmailExistsFor db today = false)
    (h2 : (activeEmployeesOf db).isEmpty = false)
    (h3 : (activeRecipientsOf db).isEmpty = false) :
    ((sendDailyEmail today token .ok db).1.success = true ∧
      (sendDailyEmail today token .ok db).2 = insertDailyEmail db today token) ∧
    ((sendDailyEmail today token (.err msg) db).1.success = false ∧
      (sendDailyEmail today token (.err msg) db).2 = insertDailyEmail db today token ∧
      dailyEmailExistsFor (sendDailyEmail today token (.err msg) db).2 today = true) := by
  have hok : (sendDailyEmail today token .ok db).2 = insertDailyEmail db today token := by
    rw [sendDailyEmail_snd]; simp [h1, h2, h3]
  have herr : (sendDailyEmail today token (.err msg) db).2 = insertDailyEmail db today token := by
    rw [sendDailyEmail_snd]; simp [h1, h2, h3]
  refine ⟨⟨?_, hok⟩, ?_, herr, ?_⟩
  · simp [sendDailyEmail, h1, h2, h3]
  · simp [sendDailyEmail, h1, h2, h3]
  · rw [herr]; exact dailyEmailExistsFor_insert db today token

/-- Witness instantiating dispatch_insert_precedes_send on the fixture
store. -/
theorem dispatch_insert_precedes_send_witness :
    dailyEmailExistsFor baseStore ("2024-06-01") = false ∧
    (activeEmployeesOf baseStore).isEmpty = false ∧
    (activeRecipientsOf baseStore).isEmpty = false ∧
    ((sendDailyEmail ("2024-06-01") tokA .ok baseStore).1.success = true ∧
      (sendDailyEmail ("2024-06-01") tokA .ok baseStore).2 =
        insertDailyEmail baseStore ("2024-06-01") tokA) ∧
    ((sendDailyEmail ("2024-06-01") tokA (.err ("boom")) baseStore).1.success = false ∧
      (sendDailyEmail ("2024-06-01") tokA (.err ("boom")) baseStore).2 =
        insertDailyEmail baseStore ("2024-06-01") tokA ∧
      dailyEmailExistsFor (sendDailyEmail ("2024-06-01") tokA (.err ("boom")) baseStore).2
        ("2024-06-01") = true) :=
  ⟨by decide, by decide, by decide,
    (dispatch_insert_precedes_send baseStore ("2024-06-01") tokA ("boom")
      (by decide) (by decide) (by decide)).1,
    (dispatch_insert_precedes_send baseStore ("2024-06-01") tokA ("boom")
      (by decide) (by decide) (by decide)).2⟩

/-- C5 counterexample: missing outbound-mail configuration is not one of
the checked preconditions and does not abort without side effects — the
send-time error it produces surfaces only after the DispatchRecord
insert, which persists. -/
theorem dispatch_preconditions_counterexample :
    (sendDailyEmail ("2024-06-01") tokA (.err ("Unauthorized")) baseStore).1 =
        ⟨false, ("Unauthorized")⟩ ∧
    (sendDailyEmail ("2024-06-01") tokA (.err ("Unauthorized")) baseStore).2 ≠ baseStore := by
  constructor
  · rfl
  · rw [show (sendDailyEmail ("2024-06-01") tokA (.err ("Unauthorized")) baseStore).2
        = insertDailyEmail baseStore ("2024-06-01") tokA from by
          rw [sendDailyEmail_snd]; decide]
    decide

/-- C5 (amended): sendDailyEmail checks exactly three preconditions, in
order — (a) a DispatchRecord already exists for today, (b) no active
employees, (c) no active recipients — each aborting with its message
and no store side effect; there is no configuration precondition (a
missing mail configuration surfaces as a send error after the insert). -/
theorem dispatch_three_preconditions_in_order (db : Store) (today token : String)
    (mail : MailOutcome) :
    (dailyEmailExistsFor db today = true →
      sendDailyEmail today token mail db = (⟨false, ("Email already sent today")⟩, db)) ∧
    (dailyEmailExistsFor db today = false → (activeEmployeesOf db).isEmpty = true →
      sendDailyEmail today token mail db = (⟨false, ("No active employees")⟩, db)) ∧
    (dailyEmailExistsFor db today = false → (activeEmployeesOf db).isEmpty = false →
      (activeRecipientsOf db).isEmpty = true →
      sendDailyEmail today token mail db = (⟨false, ("No active recipients")⟩, db)) := by
  refine ⟨fun h => by simp [sendDailyEmail, h],
    fun h1 h2 => by simp [sendDailyEmail, h1, h2],
    fun h1 h2 h3 => by simp [sendDailyEmail, h1, h2, h3]⟩

/-- Witness instantiating dispatch_three_preconditions_in_order on the
three fixture situations. -/
theorem dispatch_three_preconditions_witness :
    (dailyEmailExistsFor redeemStore ("2024-06-01") = true ∧
      sendDailyEmail ("2024-06-01") tokB .ok redeemStore =
        (⟨false, ("Email already sent today")⟩, redeemStore)) ∧
    sendDailyEmail ("2024-06-01") tokA .ok
        ({ baseStore with employees := [] }) =
      (⟨false, ("No active employees")⟩, { baseStore with employees := [] }) ∧
    sendDailyEmail ("2024-06-01") tokA .ok
        ({ baseStore with recipients := [] }) =
      (⟨false, ("No active recipients")⟩, { baseStore with recipients := [] }) :=
  ⟨⟨by decide,
    (dispatch_three_preconditions_in_order redeemStore ("2024-06-01") tokB .ok).1 (by decide)⟩,
   (dispatch_three_preconditions_in_order ({ baseStore with employees := [] })
      ("2024-06-01") tokA .ok).2.1 (by decide) (by decide),
   (dispatch_three_preconditions_in_order ({ baseStore with recipients := [] })
      ("2024-06-01") tokA .ok).2.2 (by decide) (by decide) (by decide)⟩

/-- Inversion of the signed-format branch of decodeEmployeeRef: an
accepted reference determines a positive parsed id and a signature part
equal to the truncated digest over (token, id). -/
theorem decode_signed_inv (hmacF : String → String → String)
    (secret ref token : String) (eid : Int)
    (hs : signedRefFormat ref = true)
    (hd : decodeEmployeeRef hmacF secret ref token = some eid) :
    jsParseInt10 ((refParts ref).headD ("")) = some eid ∧ 0 < eid ∧
    (refParts ref)[1]? = some ((hmacF secret (token ++ ":" ++ toString eid)).take 16) := by
  unfold decodeEmployeeRef at hd
  rw [hs] at hd
  simp only [if_true] at hd
  cases hparse : jsParseInt10 ((refParts ref).headD ("")) with
  | none => rw [hparse] at hd; simp at hd
  | some employeeId =>
    rw [hparse] at hd
    simp only at hd
    by_cases hle : employeeId ≤ 0
    · rw [if_pos hle] at hd; simp at hd
    · rw [if_neg hle] at hd
      by_cases hsig : (refParts ref)[1]? =
          some ((hmacF secret (token ++ ":" ++ toString employeeId)).take 16)
      · rw [if_pos hsig] at hd
        have heq : employeeId = eid := by simpa using hd
        subst heq
        exact ⟨rfl, by omega, hsig⟩
      · rw [if_neg hsig] at hd; simp at hd

/-- C3 counterexample: decodeEmployeeRef silently falls back to the
legacy unsigned path — a bare numeric reference carries no signature at
all, decodes successfully, and the very same reference is accepted for
two different tokens. -/
theorem decode_fallback_counterexample :
    signedRefFormat ("7") = false ∧
    decodeEmployeeRef gHmac ("change-this-secret") ("7") tokA = some 7 ∧
    decodeEmployeeRef gHmac ("change-this-secret") ("7") tokB = some 7 := by
  decide

/-- C3 (amended): for signed-format references the decoder does bind the
reference to the (token, employeeId) pair — acceptance forces the
signature part to equal the truncated digest over exactly that pair, and
replaying the reference against another token whose digest differs is
rejected as invalid — but a legacy bare positive integer in canonical
decimal form is accepted as that employee id with no signature at all
(the silent unsigned fallback the claim denies; it is also the form the
dispatch email actually mints). -/
theorem decodeEmployeeRef_signature_binding (hmacF : String → String → String)
    (secret ref token token2 : String) (eid : Int) :
    (signedRefFormat ref = true → decodeEmployeeRef hmacF secret ref token = some eid →
      0 < eid ∧ (refParts ref)[1]? =
        some ((hmacF secret (token ++ ":" ++ toString eid)).take 16)) ∧
    (signedRefFormat ref = true → decodeEmployeeRef hmacF secret ref token = some eid →
      (hmacF secret (token2 ++ ":" ++ toString eid)).take 16 ≠
        (hmacF secret (token ++ ":" ++ toString eid)).take 16 →
      decodeEmployeeRef hmacF secret ref token2 = none) ∧
    (signedRefFormat ref = false → jsParseInt10 ref = some eid → 0 < eid →
      toString eid = ref → decodeEmployeeRef hmacF secret ref token = some eid) := by
  refine ⟨?_, ?_, ?_⟩
  · intro hs hd
    have h := decode_signed_inv hmacF secret ref token eid hs hd
    exact ⟨h.2.1, h.2.2⟩
  · intro hs hd hne
    have h := decode_signed_inv hmacF secret ref token eid hs hd
    unfold decodeEmployeeRef
    rw [hs]
    simp only [if_true]
    rw [h.1]
    simp only
    rw [if_neg (by omega : ¬ eid ≤ 0)]
    rw [if_neg ?_]
    rw [h.2.2]
    intro hcontra
    exact hne (by simpa using hcontra.symm)
  · intro hs hp hpos hcanon
    unfold decodeEmployeeRef
    rw [hs]
    simp only [Bool.false_eq_true, if_false]
    rw [hp]
    simp [hpos, hcanon]

/-- Witness instantiating decodeEmployeeRef_signature_binding: the
fixture signed reference is accepted for tokA, rejected for tokB, and
the bare reference 7 decodes through the legacy fallback. -/
theorem decode_signature_binding_witness :
    (signedRefFormat refSigned = true ∧
      decodeEmployeeRef gHmac ("s") refSigned tokA = some 1234567 ∧
      0 < (1234567 : Int) ∧ (refParts refSigned)[1]? =
        some ((gHmac ("s") (tokA ++ ":" ++ toString (1234567 : Int))).take 16)) ∧
    decodeEmployeeRef gHmac ("s") refSigned tokB = none ∧
    decodeEmployeeRef gHmac ("s") ("7") tokA = some 7 :=
  ⟨⟨by decide, by decide,
    (decodeEmployeeRef_signature_binding gHmac ("s") refSigned tokA tokB 1234567).1
      (by decide) (by decide)⟩,
   (decodeEmployeeRef_signature_binding gHmac ("s") refSigned tokA tokB 1234567).2.1
      (by decide) (by decide) (by decide),
   (decodeEmployeeRef_signature_binding gHmac ("s") ("7") tokA tokB 7).2.2
      (by decide) (by decide) (by decide) (by decide)⟩

/-- Once the attempt counter reaches MAX_RETRIES the scheduler never
re-invokes: one dispatch attempt, no scheduled delay. -/
theorem sendWithRetry_stops (o : Nat → AttemptOutcome) (a : Nat)
    (h : MAX_RETRIES ≤ a) : sendWithRetry o a = (1, []) := by
  have hnlt : ¬ a < MAX_RETRIES := by omega
  unfold sendWithRetry
  cases ho : o a with
  | result r =>
    dsimp only
    rw [dif_neg hnlt]
    split_ifs <;> rfl
  | thrown =>
    dsimp only
    rw [dif_neg hnlt]

/-- Attempt 2 performs at most two dispatch attempts and schedules only
the fixed delay. -/
theorem sendWithRetry_from2 (o : Nat → AttemptOutcome) :
    (sendWithRetry o 2).1 ≤ 2 ∧ ∀ d ∈ (sendWithRetry o 2).2, d = RETRY_DELAY_MS := by
  have h3 : sendWithRetry o (2 + 1) = (1, []) :=
    sendWithRetry_stops o (2 + 1) (by norm_num [MAX_RETRIES])
  have hlt : (2 : Nat) < MAX_RETRIES := by norm_num [MAX_RETRIES]
  unfold sendWithRetry
  cases ho : o 2 with
  | result r =>
    dsimp only
    rw [dif_pos hlt, h3]
    split_ifs <;> refine ⟨by norm_num, ?_⟩ <;> simp
  | thrown =>
    dsimp only
    rw [dif_pos hlt, h3]
    exact ⟨by norm_num, by simp⟩

/-- C7: the scheduled invocation chain starting at attempt 1 performs at
most MAX_RETRIES dispatch attempts, every inter-attempt delay is the
fixed RETRY_DELAY_MS of five minutes, and a non-retriable result at any
attempt — in particular the already-sent, no-active-employees and
no-active-recipients messages — stops the chain at once with no further
attempt and no scheduled delay. -/
theorem scheduler_retry_policy (outcomes : Nat → AttemptOutcome) (a : Nat)
    (r : DispatchResult) :
    (sendWithRetry outcomes 1).1 ≤ 3 ∧
    (∀ d ∈ (sendWithRetry outcomes 1).2, d = RETRY_DELAY_MS) ∧
    RETRY_DELAY_MS = 5 * 60 * 1000 ∧ MAX_RETRIES = 3 ∧
    (outcomes a = .result r → r.success = false →
      isNonRetriableMessage r.message = true → sendWithRetry outcomes a = (1, [])) ∧
    (isNonRetriableMessage ("Email already sent today") = true ∧
      isNonRetriableMessage ("No active employees") = true ∧
      isNonRetriableMessage ("No active recipients") = true) := by
  have h2 : (sendWithRetry outcomes (1 + 1)).1 ≤ 2 ∧
      ∀ d ∈ (sendWithRetry outcomes (1 + 1)).2, d = RETRY_DELAY_MS :=
    sendWithRetry_from2 outcomes
  have hlt : (1 : Nat) < MAX_RETRIES := by norm_num [MAX_RETRIES]
  have hmain : (sendWithRetry outcomes 1).1 ≤ 3 ∧
      ∀ d ∈ (sendWithRetry outcomes 1).2, d = RETRY_DELAY_MS := by
    unfold sendWithRetry
    cases ho : outcomes 1 with
    | result r1 =>
      dsimp only
      rw [dif_pos hlt]
      split_ifs
      · exact ⟨by norm_num, by simp⟩
      · exact ⟨by norm_num, by simp⟩
      · refine ⟨by omega, ?_⟩
        intro d hd
        simp only [List.mem_cons] at hd
        rcases hd with h | h
        · exact h
        · exact h2.2 d h
    | thrown =>
      dsimp only
      rw [dif_pos hlt]
      refine ⟨by omega, ?_⟩
      intro d hd
      simp only [List.mem_cons] at hd
      rcases hd with h | h
      · exact h
      · exact h2.2 d h
  refine ⟨hmain.1, hmain.2, by norm_num [RETRY_DELAY_MS], by norm_num [MAX_RETRIES],
    ?_, by decide, by decide, by decide⟩
  intro ho hs hn
  unfold sendWithRetry
  rw [ho]
  dsimp only
  rw [hs, hn]
  simp

/-- Witness instantiating scheduler_retry_policy with a run whose first
attempt returns the non-retriable already-sent result. -/
theorem scheduler_retry_policy_witness :
    ((sendWithRetry (fun _ => .result ⟨false, ("Email already sent today")⟩) 1).1 ≤ 3 ∧
      (∀ d ∈ (sendWithRetry (fun _ => .result ⟨false, ("Email already sent today")⟩) 1).2,
        d = RETRY_DELAY_MS)) ∧
    ((fun _ => AttemptOutcome.result ⟨false, ("Email already sent today")⟩) 1 =
        .result ⟨false, ("Email already sent today")⟩ ∧
      sendWithRetry (fun _ => .result ⟨false, ("Email already sent today")⟩) 1 = (1, [])) := by
  have h := scheduler_retry_policy
    (fun _ => .result ⟨false, ("Email already sent today")⟩) 1
    ⟨false, ("Email already sent today")⟩
  exact ⟨⟨h.1, h.2.1⟩, rfl, h.2.2.2.2.1 rfl (by decide) (by decide)⟩

/-- C8 counterexample: deleting the manually created attendance row
(email_token NULL, so not produced by any DispatchRecord) still resets
the dispatch row, because the reset matches on (work_date, employee_id)
and never consults provenance. -/
theorem delete_reset_counterexample :
    manualRecord.emailToken = none ∧
    usedDispatchRow.used = true ∧
    (deleteRecordRoute ("101") deleteStore).1 = .deleted 1 ("2024-06-01") ∧
    (deleteRecordRoute ("101") deleteStore).2.dailyEmails =
      [⟨10, ("2024-06-01"), tokA, false, none⟩] := by
  decide

/-- C8 (amended): deleting an attendance row resets used and
used_by_employee_id on every daily_emails row whose sent_date and
used_by_employee_id equal the deleted row's (work_date, employee_id) —
this includes the dispatch row the record originated from, since
redemption stamps exactly those fields — and leaves every row differing
in date or redeemer unchanged; whether the deleted record was actually
produced by that dispatch (its email_token) is not consulted. -/
theorem delete_resets_matching_dispatch (db : Store) (recId : Int) (r : WorkRecord)
    (hfind : db.workRecords.find? (fun w => w.id = recId) = some r) :
    (deleteWorkRecordTx recId db).1 = some (r.employeeId, r.workDate) ∧
    (∀ e ∈ db.dailyEmails, e.sentDate = r.workDate →
      e.usedByEmployeeId = some r.employeeId →
      ({ e with used := false, usedByEmployeeId := none } : DailyEmail) ∈
        (deleteWorkRecordTx recId db).2.dailyEmails) ∧
    (∀ e ∈ db.dailyEmails,
      (¬ e.sentDate = r.workDate ∨ ¬ e.usedByEmployeeId = some r.employeeId) →
      e ∈ (deleteWorkRecordTx recId db).2.dailyEmails) ∧
    (∀ w ∈ (deleteWorkRecordTx recId db).2.workRecords, ¬ w.id = recId) := by
  unfold deleteWorkRecordTx
  rw [hfind]
  dsimp only
  refine ⟨rfl, ?_, ?_, ?_⟩
  · intro e he h1 h2
    have : ({ e with used := false, usedByEmployeeId := none } : DailyEmail) =
        (fun e => if e.sentDate = r.workDate ∧ e.usedByEmployeeId = some r.employeeId then
          { e with used := false, usedByEmployeeId := none } else e) e := by
      simp [h1, h2]
    rw [this]
    exact List.mem_map_of_mem _ he
  · intro e he hne
    have : e = (fun e => if e.sentDate = r.workDate ∧ e.usedByEmployeeId = some r.employeeId
        then { e with used := false, usedByEmployeeId := none } else e) e := by
      rcases hne with h | h <;> simp [h]
    rw [this]
    exact List.mem_map_of_mem _ he
  · intro w hw
    have := List.of_mem_filter hw
    simpa using this

/-- Witness instantiating delete_resets_matching_dispatch on the fixture
store: deleting the redemption-produced row 100 restores the dispatch
row. -/
theorem delete_resets_matching_dispatch_witness :
    deleteStore.workRecords.find? (fun w => w.id = 100) = some redeemedRecord ∧
    (deleteWorkRecordTx 100 deleteStore).1 = some (1, ("2024-06-01")) ∧
    ({ usedDispatchRow with used := false, usedByEmployeeId := none } : DailyEmail) ∈
      (deleteWorkRecordTx 100 deleteStore).2.dailyEmails ∧
    (∀ w ∈ (deleteWorkRecordTx 100 deleteStore).2.workRecords, ¬ w.id = 100) := by
  have h := delete_resets_matching_dispatch deleteStore 100 redeemedRecord (by decide)
  exact ⟨by decide, h.1, h.2.1 usedDispatchRow (by decide) (by decide) (by decide),
    h.2.2.2⟩

/-- C9: a fresh successful redemption inserts the attendance row with a
wage snapshot — exactly the wage of the employee row read inside the
transaction, defaulting to 0 when unset — and updating an employee later
(the UPDATE employees statement of the employee update route) never
touches work_records, so existing snapshots are unaffected. -/
theorem redemption_wage_snapshot (db : Store) (token : String) (eid : Int)
    (de : DailyEmail) (emp : Employee)
    (hde : findDailyEmailByToken db token = some de)
    (hemp : findEmployeeById db eid = some emp)
    (hact : emp.active = true)
    (hno : hasWorkRecordFor db eid de.sentDate = false) :
    ((redeemTransaction db token eid).2.workRecords =
      db.workRecords ++
        [⟨db.nextWorkRecordId, eid, de.sentDate, wageOrZero emp.dailyWage, some token⟩]) ∧
    wageOrZero none = 0 ∧
    (∀ (i : Int) (f l : String) (w : Int) (act : Bool) (db2 : Store),
      (updateEmployee i f l w act db2).workRecords = db2.workRecords) := by
  refine ⟨?_, rfl, fun i f l w act db2 => rfl⟩
  unfold redeemTransaction
  rw [hde]
  dsimp only
  rw [hemp]
  dsimp only
  rw [hact, hno]
  simp

/-- Witness instantiating redemption_wage_snapshot on the fixture store. -/
theorem redemption_wage_snapshot_witness :
    findDailyEmailByToken redeemStore tokA = some ⟨10, ("2024-06-01"), tokA, false, none⟩ ∧
    findEmployeeById redeemStore 1 = some aliceEmp ∧
    aliceEmp.active = true ∧
    hasWorkRecordFor redeemStore 1 ("2024-06-01") = false ∧
    (redeemTransaction redeemStore tokA 1).2.workRecords =
      [⟨100, 1, ("2024-06-01"), 100, some tokA⟩] := by
  have h := redemption_wage_snapshot redeemStore tokA 1
    ⟨10, ("2024-06-01"), tokA, false, none⟩ aliceEmp
    (by decide) (by decide) (by decide) (by decide)
  exact ⟨by decide, by decide, by decide, by decide, by simpa using h.1⟩

/-- A reference that decodes successfully also passes the shape check
isValidEmployeeRef run before decoding. -/
theorem decode_some_validRef (hmacF : String → String → String)
    (secret ref token : String) (eid : Int)
    (h : decodeEmployeeRef hmacF secret ref token = some eid) :
    isValidEmployeeRef ref = true := by
  unfold decodeEmployeeRef at h
  unfold isValidEmployeeRef
  cases hs : signedRefFormat ref with
  | true => simp
  | false =>
    rw [hs] at h
    simp only [Bool.false_eq_true, if_false] at h ⊢
    cases hp : jsParseInt10 ref with
    | none => rw [hp] at h; simp at h
    | some num =>
      rw [hp] at h
      simp only at h
      split_ifs at h with hcond
      · simp [hcond.1, hcond.2]

/-- find? by token commutes with a row update that preserves tokens. -/
theorem find_token_map (l : List DailyEmail) (g : DailyEmail → DailyEmail)
    (t : String) (hg : ∀ e, (g e).token = e.token) :
    (l.map g).find? (fun e => e.token = t) =
      (l.find? (fun e => e.token = t)).map g := by
  induction l with
  | nil => rfl
  | cons a l ih =>
    simp only [List.map_cons, List.find?_cons]
    by_cases ha : a.token = t
    · simp [hg a, ha]
    · simp [hg a, ha, ih]

/-- Characterization of a fresh successful redemption transaction. -/
theorem redeem_fresh (db : Store) (token : String) (eid : Int)
    (de : DailyEmail) (emp : Employee)
    (hde : findDailyEmailByToken db token = some de)
    (hemp : findEmployeeById db eid = some emp)
    (hact : emp.active = true)
    (hno : hasWorkRecordFor db eid de.sentDate = false) :
    redeemTransaction db token eid =
      (.success (emp.firstName ++ " " ++ emp.lastName) de.sentDate,
        { db with
            workRecords := db.workRecords ++
              [⟨db.nextWorkRecordId, eid, de.sentDate, wageOrZero emp.dailyWage, some token⟩],
            nextWorkRecordId := db.nextWorkRecordId + 1,
            dailyEmails := db.dailyEmails.map (fun e =>
              if e.id = de.id then { e with used := true, usedByEmployeeId := some eid }
              else e) }) := by
  unfold redeemTransaction
  rw [hde]
  dsimp only
  rw [hemp]
  dsimp only
  rw [hact, hno]
  simp

/-- Characterization of an idempotent-success redemption transaction:
an existing attendance row means no write at all. -/
theorem redeem_already (db : Store) (token : String) (eid : Int)
    (de : DailyEmail) (emp : Employee)
    (hde : findDailyEmailByToken db token = some de)
    (hemp : findEmployeeById db eid = some emp)
    (hact : emp.active = true)
    (hyes : hasWorkRecordFor db eid de.sentDate = true) :
    redeemTransaction db token eid =
      (.success (emp.firstName ++ " " ++ emp.lastName) de.sentDate, db) := by
  unfold redeemTransaction
  rw [hde]
  dsimp only
  rw [hemp]
  dsimp only
  rw [hact, hyes]
  simp

/-- When the rate limiter admits the request and both shape checks and
the decode succeed, the handler runs exactly the redemption
transaction. -/
theorem handle_ok (hmacF : String → String → String) (secret : String)
    (now : Nat) (rl : RateMap) (ip token ref : String) (db : Store) (eid : Int)
    (hrate : (checkTrackingRateLimit now rl ip).1.allowed = true)
    (huuid : isValidUUID token = true)
    (hdec : decodeEmployeeRef hmacF secret ref token = some eid) :
    handleTracking hmacF secret now rl ip token ref db =
      ((redeemTransaction db token eid).1, (checkTrackingRateLimit now rl ip).2,
        (redeemTransaction db token eid).2) := by
  have hval := decode_some_validRef hmacF secret ref token eid hdec
  unfold handleTracking
  dsimp only
  rw [hrate, huuid, hval, hdec]
  simp

/-- Every failing branch of the redemption transaction rolls back:
store unchanged. -/
theorem redeem_fail_unchanged (db : Store) (token : String) (eid : Int)
    (h : (redeemTransaction db token eid).1.isSuccess = false) :
    (redeemTransaction db token eid).2 = db := by
  unfold redeemTransaction at h ⊢
  cases hde : findDailyEmailByToken db token with
  | none => rfl
  | some de =>
    rw [hde] at h
    dsimp only at h ⊢
    cases hemp : findEmployeeById db eid with
    | none => rfl
    | some emp =>
      rw [hemp] at h
      dsimp only at h ⊢
      split_ifs at h ⊢
      · rfl
      · simp [TrackResult.isSuccess] at h
      · simp [TrackResult.isSuccess] at h

/-- C6: every failing redemption request leaves the persistent store
unchanged — whatever the failure (rate-limited, malformed token or
reference, tampered or replayed signed reference, unknown token, missing
or inactive employee), a non-success render means the store after the
request equals the store before it; and a tampered signed reference
(decode failure) on an admitted, well-formed request always renders the
invalid-reference error and writes nothing. -/
theorem tracking_failures_write_nothing (hmacF : String → String → String)
    (secret : String) (now : Nat) (rl : RateMap) (ip token ref : String)
    (db : Store) :
    ((handleTracking hmacF secret now rl ip token ref db).1.isSuccess = false →
      (handleTracking hmacF secret now rl ip token ref db).2.2 = db) ∧
    ((checkTrackingRateLimit now rl ip).1.allowed = true → isValidUUID token = true →
      signedRefFormat ref = true → decodeEmployeeRef hmacF secret ref token = none →
      (handleTracking hmacF secret now rl ip token ref db).1 = .invalidOrExpiredRef ∧
      (handleTracking hmacF secret now rl ip token ref db).2.2 = db) := by
  constructor
  · intro h
    unfold handleTracking at h ⊢
    dsimp only at h ⊢
    by_cases hrate : (checkTrackingRateLimit now rl ip).1.allowed = true
    · rw [hrate] at h ⊢
      simp only [Bool.not_true, Bool.false_eq_true, if_false] at h ⊢
      by_cases huuid : isValidUUID token = true
      · rw [huuid] at h ⊢
        simp only [Bool.not_true, Bool.false_eq_true, if_false] at h ⊢
        by_cases hval : isValidEmployeeRef ref = true
        · rw [hval] at h ⊢
          simp only [Bool.not_true, Bool.false_eq_true, if_false] at h ⊢
          cases hdec : decodeEmployeeRef hmacF secret ref token with
          | none => rfl
          | some eid =>
            rw [hdec] at h
            dsimp only at h ⊢
            exact redeem_fail_unchanged db token eid h
        · have hvf : isValidEmployeeRef ref = false := by
            revert hval; cases isValidEmployeeRef ref <;> simp
          rw [hvf]
          simp
      · have huf : isValidUUID token = false := by
          revert huuid; cases isValidUUID token <;> simp
        rw [huf]
        simp
    · have hrf : (checkTrackingRateLimit now rl ip).1.allowed = false := by
        revert hrate; cases (checkTrackingRateLimit now rl ip).1.allowed <;> simp
      rw [hrf]
      simp only [Bool.not_false, if_true]
  · intro hrate huuid hsf hdec
    have hval : isValidEmployeeRef ref = true := by
      unfold isValidEmployeeRef; simp [hsf]
    unfold handleTracking
    dsimp only
    rw [hrate, huuid, hval, hdec]
    simp

/-- C4: redemption is idempotent per employee and day. Under an admitted
rate check for both requests, a valid token shape, a reference decoding
to an employee present, active and not yet recorded for the dispatch
day, the first request succeeds and inserts; repeating the very same
(token, employeeRef) request succeeds again, writes nothing new (the
store is unchanged), and exactly one attendance row for that employee
and day exists. -/
theorem redemption_idempotent
    (hmacF : String → String → String) (secret : String)
    (now1 now2 : Nat) (rl : RateMap) (ip token ref : String) (db : Store)
    (eid : Int) (de : DailyEmail) (emp : Employee)
    (hrate1 : (checkTrackingRateLimit now1 rl ip).1.allowed = true)
    (hrate2 : (checkTrackingRateLimit now2 (checkTrackingRateLimit now1 rl ip).2 ip).1.allowed = true)
    (huuid : isValidUUID token = true)
    (hdec : decodeEmployeeRef hmacF secret ref token = some eid)
    (hde : findDailyEmailByToken db token = some de)
    (hemp : findEmployeeById db eid = some emp)
    (hact : emp.active = true)
    (hno : hasWorkRecordFor db eid de.sentDate = false) :
    (handleTracking hmacF secret now1 rl ip token ref db).1 =
      .success (emp.firstName ++ " " ++ emp.lastName) de.sentDate ∧
    (handleTracking hmacF secret now2
        (handleTracking hmacF secret now1 rl ip token ref db).2.1 ip token ref
        (handleTracking hmacF secret now1 rl ip token ref db).2.2).1 =
      .success (emp.firstName ++ " " ++ emp.lastName) de.sentDate ∧
    (handleTracking hmacF secret now2
        (handleTracking hmacF secret now1 rl ip token ref db).2.1 ip token ref
        (handleTracking hmacF secret now1 rl ip token ref db).2.2).2.2 =
      (handleTracking hmacF secret now1 rl ip token ref db).2.2 ∧
    (((handleTracking hmacF secret now1 rl ip token ref db).2.2).workRecords.filter
        (fun w => w.employeeId = eid ∧ w.workDate = de.sentDate)).length = 1 := by
  have h1 := handle_ok hmacF secret now1 rl ip token ref db eid hrate1 huuid hdec
  rw [redeem_fresh db token eid de emp hde hemp hact hno] at h1
  rw [h1]
  dsimp only
  have hg : ∀ e : DailyEmail,
      ((fun e => if e.id = de.id then
          { e with used := true, usedByEmployeeId := some eid } else e) e).token
        = e.token := by
    intro e; by_cases hh : e.id = de.id <;> simp [hh]
  have hde1 : findDailyEmailByToken
      { db with
          workRecords := db.workRecords ++
            [⟨db.nextWorkRecordId, eid, de.sentDate, wageOrZero emp.dailyWage, some token⟩],
          nextWorkRecordId := db.nextWorkRecordId + 1,
          dailyEmails := db.dailyEmails.map (fun e =>
            if e.id = de.id then { e with used := true, usedByEmployeeId := some eid }
            else e) } token
      = some { de with used := true, usedByEmployeeId := some eid } := by
    unfold findDailyEmailByToken
    dsimp only
    rw [find_token_map _ _ token hg]
    unfold findDailyEmailByToken at hde
    rw [hde]
    simp
  have hemp1 : findEmployeeById
      { db with
          workRecords := db.workRecords ++
            [⟨db.nextWorkRecordId, eid, de.sentDate, wageOrZero emp.dailyWage, some token⟩],
          nextWorkRecordId := db.nextWorkRecordId + 1,
          dailyEmails := db.dailyEmails.map (fun e =>
            if e.id = de.id then { e with used := true, usedByEmployeeId := some eid }
            else e) } eid = some emp := hemp
  have hyes1 : hasWorkRecordFor
      { db with
          workRecords := db.workRecords ++
            [⟨db.nextWorkRecordId, eid, de.sentDate, wageOrZero emp.dailyWage, some token⟩],
          nextWorkRecordId := db.nextWorkRecordId + 1,
          dailyEmails := db.dailyEmails.map (fun e =>
            if e.id = de.id then { e with used := true, usedByEmployeeId := some eid }
            else e) } eid de.sentDate = true := by
    unfold hasWorkRecordFor
    dsimp only
    rw [List.any_append]
    simp
  rw [handle_ok hmacF secret now2 (checkTrackingRateLimit now1 rl ip).2 ip token ref _ eid
      hrate2 huuid hdec]
  rw [redeem_already _ token eid { de with used := true, usedByEmployeeId := some eid } emp
      hde1 hemp1 hact hyes1]
  dsimp only
  refine ⟨rfl, rfl, rfl, ?_⟩
  rw [List.filter_append]
  have hkill : db.workRecords.filter
      (fun w => decide (w.employeeId = eid ∧ w.workDate = de.sentDate)) = [] := by
    have hh := hno
    unfold hasWorkRecordFor at hh
    rw [List.any_eq_false] at hh
    exact List.filter_eq_nil_iff.mpr fun a ha => hh a ha
  rw [hkill]
  simp

/-- Witness instantiating tracking_failures_write_nothing: the fixture
signed reference replayed against tokB fails signature verification,
renders the invalid-reference error, and leaves the store unchanged. -/
theorem tracking_failures_write_nothing_witness :
    (checkTrackingRateLimit 0 emptyRateMap ("9.9.9.9")).1.allowed = true ∧
    isValidUUID tokB = true ∧
    signedRefFormat refSigned = true ∧
    decodeEmployeeRef gHmac ("s") refSigned tokB = none ∧
    (handleTracking gHmac ("s") 0 emptyRateMap ("9.9.9.9") tokB refSigned redeemStore).1 =
      .invalidOrExpiredRef ∧
    (handleTracking gHmac ("s") 0 emptyRateMap ("9.9.9.9") tokB refSigned redeemStore).2.2 =
      redeemStore ∧
    ((handleTracking gHmac ("s") 0 emptyRateMap ("9.9.9.9") tokB refSigned redeemStore).1.isSuccess
        = false ∧
      (handleTracking gHmac ("s") 0 emptyRateMap ("9.9.9.9") tokB refSigned redeemStore).2.2 =
        redeemStore) := by
  have h := tracking_failures_write_nothing gHmac ("s") 0 emptyRateMap ("9.9.9.9") tokB
    refSigned redeemStore
  have h2 := h.2 (by decide) (by decide) (by decide) (by decide)
  have hsucc : (handleTracking gHmac ("s") 0 emptyRateMap ("9.9.9.9") tokB refSigned
      redeemStore).1.isSuccess = false := by rw [h2.1]; rfl
  exact ⟨by decide, by decide, by decide, by decide, h2.1, h2.2, hsucc, h.1 hsucc⟩

/-- Witness instantiating redemption_idempotent: employee 1 redeems the
fixture token twice through the full handler. -/
theorem redemption_idempotent_witness :
    (handleTracking gHmac ("s") 0 emptyRateMap ("1.2.3.4") tokA ("1") redeemStore).1 =
      .success (aliceEmp.firstName ++ " " ++ aliceEmp.lastName) ("2024-06-01") ∧
    (handleTracking gHmac ("s") 1
        (handleTracking gHmac ("s") 0 emptyRateMap ("1.2.3.4") tokA ("1") redeemStore).2.1
        ("1.2.3.4") tokA ("1")
        (handleTracking gHmac ("s") 0 emptyRateMap ("1.2.3.4") tokA ("1") redeemStore).2.2).1 =
      .success (aliceEmp.firstName ++ " " ++ aliceEmp.lastName) ("2024-06-01") ∧
    (handleTracking gHmac ("s") 1
        (handleTracking gHmac ("s") 0 emptyRateMap ("1.2.3.4") tokA ("1") redeemStore).2.1
        ("1.2.3.4") tokA ("1")
        (handleTracking gHmac ("s") 0 emptyRateMap ("1.2.3.4") tokA ("1") redeemStore).2.2).2.2 =
      (handleTracking gHmac ("s") 0 emptyRateMap ("1.2.3.4") tokA ("1") redeemStore).2.2 ∧
    (((handleTracking gHmac ("s") 0 emptyRateMap ("1.2.3.4") tokA ("1") redeemStore).2.2).workRecords.filter
        (fun w => w.employeeId = 1 ∧ w.workDate = ("2024-06-01"))).length = 1 :=
  redemption_idempotent gHmac ("s") 0 1 emptyRateMap ("1.2.3.4") tokA ("1") redeemStore 1
    ⟨10, ("2024-06-01"), tokA, false, none⟩ aliceEmp
    (by decide) (by decide) (by decide) (by decide) (by decide) (by decide) (by decide)
    (by decide)

/-- While an address is locked and every remaining request falls inside
the lockout window, each request is rejected as locked out and the map
is not modified. -/
theorem rate_locked_run (ip : String) (ts : List Nat) (m : RateMap) (rec : RateRecord)
    (hm : m ip = some rec) (hl : rec.locked = true)
    (hts : ∀ t ∈ ts, t - rec.windowStart < LOCKOUT_TIME) :
    runRateLimit ip ts m = (ts.map (fun _ => (⟨false, true⟩ : RateResult)), m) := by
  induction ts with
  | nil => rfl
  | cons t ts ih =>
    have hstep : checkTrackingRateLimit t m ip = (⟨false, true⟩, m) := by
      unfold checkTrackingRateLimit
      rw [hm]
      dsimp only
      rw [if_pos ⟨hl, hts t (by simp)⟩]
    unfold runRateLimit
    dsimp only
    rw [hstep]
    dsimp only
    rw [ih (fun t2 ht2 => hts t2 (by simp [ht2]))]
    simp

/-- Characterization of a run inside one window: starting from an
unlocked record with count c (at least one request already counted,
lockout not yet reached) and requests all inside the window that opened
at ws, the i-th remaining request is decided by expectedRateResult of
the running count. -/
theorem rate_window_run (ip : String) (ts : List Nat) :
    ∀ (c ws : Nat) (m : RateMap), m ip = some ⟨c, ws, false⟩ →
      1 ≤ c → c ≤ LOCKOUT_THRESHOLD →
      (∀ t ∈ ts, ws ≤ t ∧ t - ws ≤ RATE_LIMIT_WINDOW) →
      (runRateLimit ip ts m).1 =
        (List.range ts.length).map (fun i => expectedRateResult (c + i)) := by
  induction ts with
  | nil => intro c ws m hm h1 h100 hts; rfl
  | cons t ts ih =>
    intro c ws m hm h1 h100 hts
    obtain ⟨hwt, hbound⟩ := hts t (by simp)
    have hwin : RATE_LIMIT_WINDOW < LOCKOUT_TIME := by
      norm_num [RATE_LIMIT_WINDOW, LOCKOUT_TIME]
    by_cases hcap : c + 1 > LOCKOUT_THRESHOLD
    · have hstep : checkTrackingRateLimit t m ip =
          (⟨false, true⟩, setRate m ip ⟨c + 1, t, true⟩) := by
        unfold checkTrackingRateLimit
        rw [hm]
        dsimp only
        rw [if_neg (by simp), if_neg (by omega), if_pos (by omega)]
      unfold runRateLimit
      dsimp only
      rw [hstep]
      dsimp only
      rw [rate_locked_run ip ts (setRate m ip ⟨c + 1, t, true⟩) ⟨c + 1, t, true⟩
        (by unfold setRate; simp) rfl ?bnd]
      case bnd =>
        intro t2 ht2
        obtain ⟨hw2, hb2⟩ := hts t2 (by simp [ht2])
        dsimp only
        omega
      have hall : ∀ i, expectedRateResult (c + i) = ⟨false, true⟩ := by
        intro i
        unfold expectedRateResult
        have hc : c = LOCKOUT_THRESHOLD := by omega
        have h30 : MAX_REQUESTS_PER_WINDOW < LOCKOUT_THRESHOLD := by
          norm_num [MAX_REQUESTS_PER_WINDOW, LOCKOUT_THRESHOLD]
        rw [if_neg (by omega), if_neg (by omega)]
      simp [hall, List.replicate_succ]
    · have hstate : setRate m ip ⟨c + 1, ws, false⟩ ip = some ⟨c + 1, ws, false⟩ := by
        unfold setRate; simp
      by_cases h30 : c + 1 > MAX_REQUESTS_PER_WINDOW
      · have hstep : checkTrackingRateLimit t m ip =
            (⟨false, false⟩, setRate m ip ⟨c + 1, ws, false⟩) := by
          unfold checkTrackingRateLimit
          rw [hm]
          dsimp only
          rw [if_neg (by simp), if_neg (by omega), if_neg (by omega), if_pos (by omega)]
        unfold runRateLimit
        dsimp only
        rw [hstep]
        dsimp only
        rw [ih (c + 1) ws _ hstate (by omega) (by omega)
          (fun t2 ht2 => hts t2 (by simp [ht2]))]
        rw [List.length_cons, List.range_succ_eq_map, List.map_cons, List.map_map]
        have hfun : ((fun i => expectedRateResult (c + i)) ∘ Nat.succ) =
            (fun i => expectedRateResult (c + 1 + i)) :=
          funext fun i => congrArg expectedRateResult (by omega)
        rw [hfun]
        have hfirst : expectedRateResult (c + 0) = ⟨false, false⟩ := by
          unfold expectedRateResult
          rw [if_neg (by omega), if_pos (by omega)]
        rw [hfirst]
      · have hstep : checkTrackingRateLimit t m ip =
            (⟨true, false⟩, setRate m ip ⟨c + 1, ws, false⟩) := by
          unfold checkTrackingRateLimit
          rw [hm]
          dsimp only
          rw [if_neg (by simp), if_neg (by omega), if_neg (by omega), if_neg (by omega)]
        unfold runRateLimit
        dsimp only
        rw [hstep]
        dsimp only
        rw [ih (c + 1) ws _ hstate (by omega) (by omega)
          (fun t2 ht2 => hts t2 (by simp [ht2]))]
        rw [List.length_cons, List.range_succ_eq_map, List.map_cons, List.map_map]
        have hfun : ((fun i => expectedRateResult (c + i)) ∘ Nat.succ) =
            (fun i => expectedRateResult (c + 1 + i)) :=
          funext fun i => congrArg expectedRateResult (by omega)
        rw [hfun]
        have hfirst : expectedRateResult (c + 0) = ⟨true, false⟩ := by
          unfold expectedRateResult
          rw [if_pos (by omega)]
        rw [hfirst]

/-- C10: per client address, within one window the limiter admits
exactly the first MAX_REQUESTS_PER_WINDOW = 30 requests (the 31st and
later return not-allowed), and past LOCKOUT_THRESHOLD = 100 requests the
address is locked out; while locked, every request within LOCKOUT_TIME
(15 minutes) of the lock is rejected and the record is untouched; once
a window has expired (and any lockout has elapsed) the next request is
admitted with the count reset to 1 and the lock cleared. -/
theorem checkTrackingRateLimit_policy (ip : String) :
    (∀ (t0 : Nat) (ts : List Nat),
      (∀ t ∈ ts, t0 ≤ t ∧ t - t0 ≤ RATE_LIMIT_WINDOW) →
      (runRateLimit ip (t0 :: ts) emptyRateMap).1 =
        (List.range (ts.length + 1)).map expectedRateResult) ∧
    (∀ (now : Nat) (m : RateMap) (rec : RateRecord), m ip = some rec →
      rec.locked = true → now - rec.windowStart < LOCKOUT_TIME →
      checkTrackingRateLimit now m ip = (⟨false, true⟩, m)) ∧
    (∀ (now : Nat) (m : RateMap) (rec : RateRecord), m ip = some rec →
      (rec.locked = false ∨ LOCKOUT_TIME ≤ now - rec.windowStart) →
      RATE_LIMIT_WINDOW < now - rec.windowStart →
      checkTrackingRateLimit now m ip = (⟨true, false⟩, setRate m ip ⟨1, now, false⟩)) := by
  refine ⟨?_, ?_, ?_⟩
  · intro t0 ts hts
    have hstep : checkTrackingRateLimit t0 emptyRateMap ip =
        (⟨true, false⟩, setRate emptyRateMap ip ⟨1, t0, false⟩) := rfl
    unfold runRateLimit
    dsimp only
    rw [hstep]
    dsimp only
    rw [rate_window_run ip ts 1 t0 _ (by unfold setRate; simp) (by norm_num)
      (by norm_num [LOCKOUT_THRESHOLD]) hts]
    rw [List.range_succ_eq_map, List.map_cons, List.map_map]
    have hfun : (expectedRateResult ∘ Nat.succ) = (fun i => expectedRateResult (1 + i)) :=
      funext fun i => congrArg expectedRateResult (by omega)
    rw [hfun]
    have hfirst : expectedRateResult 0 = ⟨true, false⟩ := by
      unfold expectedRateResult
      rw [if_pos (by norm_num [MAX_REQUESTS_PER_WINDOW])]
    rw [hfirst]
  · intro now m rec hm hl hlt
    unfold checkTrackingRateLimit
    rw [hm]
    dsimp only
    rw [if_pos ⟨hl, hlt⟩]
  · intro now m rec hm hnl hwin
    unfold checkTrackingRateLimit
    rw [hm]
    dsimp only
    rw [if_neg ?nolock, if_pos (by omega)]
    case nolock =>
      rintro ⟨hl, hlt⟩
      rcases hnl with h | h
      · rw [h] at hl; exact absurd hl (by simp)
      · omega

/-- Witness instantiating checkTrackingRateLimit_policy: 120 requests at
time 0 from one address produce 30 admissions, then refusals, then
lockout from the 101st on; a locked record rejects within the lockout
window; an expired window resets. -/
theorem checkTrackingRateLimit_policy_witness :
    ((∀ t ∈ List.replicate 119 0, (0 : Nat) ≤ t ∧ t - 0 ≤ RATE_LIMIT_WINDOW) ∧
      (runRateLimit ("1.1.1.1") (0 :: List.replicate 119 0) emptyRateMap).1 =
        (List.range 120).map expectedRateResult) ∧
    checkTrackingRateLimit 5 (setRate emptyRateMap ("1.1.1.1") ⟨101, 0, true⟩) ("1.1.1.1") =
      (⟨false, true⟩, setRate emptyRateMap ("1.1.1.1") ⟨101, 0, true⟩) ∧
    checkTrackingRateLimit 70000 (setRate emptyRateMap ("1.1.1.1") ⟨31, 0, false⟩) ("1.1.1.1") =
      (⟨true, false⟩, setRate (setRate emptyRateMap ("1.1.1.1") ⟨31, 0, false⟩) ("1.1.1.1")
        ⟨1, 70000, false⟩) := by
  have h := checkTrackingRateLimit_policy ("1.1.1.1")
  have h1 : ∀ t ∈ List.replicate 119 0, (0 : Nat) ≤ t ∧ t - 0 ≤ RATE_LIMIT_WINDOW := by
    intro t ht
    rw [List.eq_of_mem_replicate ht]
    exact ⟨le_refl 0, by norm_num⟩
  refine ⟨⟨h1, ?_⟩, ?_, ?_⟩
  · have := h.1 0 (List.replicate 119 0) h1
    simpa using this
  · exact h.2.1 5 _ ⟨101, 0, true⟩ (by unfold setRate; simp) rfl
      (by norm_num [LOCKOUT_TIME])
  · exact h.2.2 70000 _ ⟨31, 0, false⟩ (by unfold setRate; simp) (Or.inl rfl)
      (by norm_num [RATE_LIMIT_WINDOW])
